import Mathlib

/-!
# Session and request-dispatch layer of the betfair client

A shallow embedding of `session.go`, `account.go` and `betRequest` of
`betting.go`.  Go's `(value, error)` results are `Except String _` (the error
carries its message) or, where the source hands back both components and a
property speaks of both, a pair whose second component is the error
(`none` for Go's `nil`).  Everything the package reaches through the standard
library (the file system, TLS key loading, URL parsing, the HTTP round trip,
JSON encoding and decoding) is a field of `Env`, so the functions below are
executable once an `Env` is given.
-/

namespace Betfair

/-! ## Endpoint registry (`session.go`, `endpoints`) -/

/-- The package-level `endpoints` map: region, then logical endpoint, then base
URL.  Keys are distinct, so an association list read with `List.lookup` is the
map. -/
def endpoints : List (String × List (String × String)) :=
  [ ("UK",
      [ ("certLogin", "https://identitysso-api.betfair.com/api/certlogin"),
        ("restLogin", "https://identitysso.betfair.com/api/login"),
        ("betting", "https://api.betfair.com/exchange/betting/rest/v1.0/"),
        ("account", "https://api.betfair.com/exchange/account/rest/v1.0/") ]),
    ("AU",
      [ ("certLogin", "https://identitysso-api.betfair.com/api/certlogin"),
        ("restLogin", "https://identitysso.betfair.com/api/login"),
        ("betting", "https://api-au.betfair.com/exchange/betting/rest/v1.0/"),
        ("account", "https://api-au.betfair.com/exchange/account/rest/v1.0/") ]) ]

/-- The inner table `endpoints[exchange]`.  Indexing a Go map with an absent
key gives the zero value, here the nil (empty) inner map. -/
def endpointsAt (exchange : String) : List (String × String) :=
  (endpoints.lookup exchange).getD []

/-- The two-value read `v, exists := endpoints[exchange][endpoint]`: `none` is
`exists == false`. -/
def endpointLookup (exchange endpoint : String) : Option String :=
  (endpointsAt exchange).lookup endpoint

/-- The message built by `fmt.Sprintf("invalid endpoint params: %s %s %s", ...)`. -/
def invalidEndpointMsg (endpoint method exchange : String) : String :=
  "invalid endpoint params: " ++ endpoint ++ " " ++ method ++ " " ++ exchange

/-- The function `prepareEndpoint(endpoint, method, exchange)`. -/
def prepareEndpoint (endpoint method exchange : String) : Except String String :=
  match endpointLookup exchange endpoint with
  | none => .error (invalidEndpointMsg endpoint method exchange)
  | some url =>
    if endpoint ≠ "certLogin" ∧ endpoint ≠ "restLogin" then
      .ok (url ++ (method ++ "/"))
    else
      .ok url

/-! ## Credentials (`session.go`) -/

/-- The embedded `userCredentials` struct. -/
structure userCredentials where
  Username : String
  Password : String
  Exchange : String
  deriving DecidableEq, Repr

/-- The struct `InteractiveCredentials`: the embedded `*userCredentials` (whose fields Go
promotes, so `c.Username` of the source is `c.userCredentials.Username` here)
and the application key. -/
structure InteractiveCredentials where
  userCredentials : userCredentials
  ApplicationKey : String
  deriving DecidableEq, Repr

/-- The anonymous `CertPath` struct of `NonInteractiveCredentials`. -/
structure CertPath where
  CrtFile : String
  KeyFile : String
  deriving DecidableEq, Repr

/-- The struct `NonInteractiveCredentials`: the embedded user credentials and the two
certificate paths. -/
structure NonInteractiveCredentials where
  userCredentials : userCredentials
  CertPath : CertPath
  deriving DecidableEq, Repr

/-- The interface `CredentialInterface` holds one of the two pointer types `NewCredentials`
produces; the type switches of the source are matches on the constructor. -/
inductive CredentialInterface where
  | interactive (c : InteractiveCredentials)
  | nonInteractive (c : NonInteractiveCredentials)
  deriving DecidableEq, Repr

/-- The function `NewCredentials(params ...string)`: the pair `(CredentialInterface, error)`,
`none` standing for `nil`.  The indices are read only after the length test, so
the default of `getD` is never used. -/
def NewCredentials (params : List String) : Option CredentialInterface × Option String :=
  let lp := params.length
  if lp ≠ 4 ∧ lp ≠ 5 then
    (none, some "invalid credential params")
  else if lp = 5 then
    (some (.nonInteractive
      { userCredentials :=
          { Username := params.getD 0 "",
            Password := params.getD 1 "",
            Exchange := params.getD 2 "" },
        CertPath := { CrtFile := params.getD 3 "", KeyFile := params.getD 4 "" } }), none)
  else
    (some (.interactive
      { userCredentials :=
          { Username := params.getD 0 "",
            Password := params.getD 1 "",
            Exchange := params.getD 2 "" },
        ApplicationKey := params.getD 3 "" }), none)

/-! ## The world outside the package -/

/-- An `http.Header` restricted to single-valued keys.  Every key the package
uses is already in canonical MIME form, so `Set`, `Del` and `Get` compare keys
as they stand. -/
abbrev Header := List (String × String)

/-- The method `Header.Del(key)`. -/
def Header.Del (h : Header) (key : String) : Header :=
  h.filter (fun kv => kv.1 ≠ key)

/-- The method `Header.Set(key, value)`: replaces whatever `key` held. -/
def Header.Set (h : Header) (key value : String) : Header :=
  (key, value) :: Header.Del h key

/-- Reading a header: `none` when the key is absent from the map, `some ""`
when it is present and empty. -/
def Header.Get (h : Header) (key : String) : Option String :=
  h.lookup key

/-- The part of `http.Request` the package touches. -/
structure Request where
  Method : String
  URL : String
  Header : Header
  Body : String
  deriving DecidableEq, Repr

/-- The part of `http.Response` the package reads.  `Body` is what
`ioutil.ReadAll(res.Body)` gives. -/
structure Response where
  Status : String
  StatusCode : Int
  Body : Except String String

/-- The `tls.Config` put on the transport by `getHttpClient`; a certificate is
kept as an uninterpreted string. -/
structure Transport where
  Certificates : List String
  InsecureSkipVerify : Bool
  deriving DecidableEq, Repr

/-- The `http.Client`: `Transport` is `none` for the default transport. -/
structure Client where
  Transport : Option Transport
  deriving DecidableEq, Repr

/-- One element of `developerApp.AppVersions`. -/
structure AppVersion where
  Owner : String
  VersionId : Nat
  Version : String
  ApplicationKey : String
  DelayData : Bool
  SubscriptionRequired : Bool
  OwnerManaged : Bool
  Active : Bool
  deriving DecidableEq, Repr

/-- The `developerApp` struct of `account.go`. -/
structure developerApp where
  AppName : String
  AppId : Nat
  AppVersions : List AppVersion
  deriving DecidableEq, Repr

/-- The struct decoded from the interactive login response. -/
structure RestLoginResult where
  Token : String
  Product : String
  Status : String
  Error : String
  deriving DecidableEq, Repr

/-- The struct decoded from the certificate login response (`sessionToken`,
`loginStatus`). -/
structure CertLoginResult where
  Token : String
  Status : String
  deriving DecidableEq, Repr

/-- What the package takes from outside its own source: the constant
`PKG_NAME` (declared in a file that is not part of the sources at hand), the
file system, key loading, `http.NewRequest`, the round trip of the client, and
`json.Unmarshal` at the three result types used by `session.go` and
`account.go`. -/
structure Env where
  /-- The package constant `PKG_NAME`. -/
  PKG_NAME : String
  /-- For a path, the error of `os.Stat` when `os.IsNotExist` holds of it. -/
  statNotExist : String → Option String
  /-- The function `tls.LoadX509KeyPair`. -/
  LoadX509KeyPair : String → String → Except String String
  /-- The error of `http.NewRequest("POST", url, body)`, if any. -/
  newRequestError : String → Option String
  /-- The call `client.Do(req)`. -/
  Do : Client → Request → Except String Response
  /-- The call `json.Unmarshal` into the interactive login result. -/
  unmarshalRestLogin : String → Except String RestLoginResult
  /-- The call `json.Unmarshal` into the certificate login result. -/
  unmarshalCertLogin : String → Except String CertLoginResult
  /-- The call `json.Unmarshal` into `[]developerApp`. -/
  unmarshalApps : String → Except String (List developerApp)

/-- The function `http.NewRequest(method, url, body)`: a request with an empty header. -/
def NewRequest (env : Env) (method url body : String) : Except String Request :=
  match env.newRequestError url with
  | some e => .error e
  | none => .ok { Method := method, URL := url, Header := [], Body := body }

/-! ## Session (`session.go`) -/

/-- The `Session` struct.  `requestCredentials` is the value behind the
pointer of that name; `developerApps` is `none` for the nil pointer.  The
logger is left out: what it prints is not modelled, only the termination caused
by `Fatal` is (see `betRequest`). -/
structure Session where
  token : String
  credentials : CredentialInterface
  requestCredentials : InteractiveCredentials
  httpClient : Client
  developerApps : Option (List developerApp)
  deriving DecidableEq, Repr

/-- The function `getHttpClient(credentials)`. -/
def getHttpClient (env : Env) (credentials : CredentialInterface) : Except String Client :=
  match credentials with
  | .nonInteractive c =>
    match env.statNotExist c.CertPath.CrtFile with
    | some err => .error err
    | none =>
      match env.statNotExist c.CertPath.KeyFile with
      | some err => .error err
      | none =>
        match env.LoadX509KeyPair c.CertPath.CrtFile c.CertPath.KeyFile with
        | .error err => .error err
        | .ok cert =>
          .ok { Transport := some { Certificates := [cert], InsecureSkipVerify := true } }
  | .interactive _ => .ok { Transport := none }

/-- The function `setRequestCredentials(s)`. -/
def setRequestCredentials (s : Session) : Session :=
  match s.credentials with
  | .interactive c => { s with requestCredentials := c }
  | .nonInteractive c =>
    { s with requestCredentials :=
        { userCredentials := c.userCredentials, ApplicationKey := "" } }

/-- The first half of `doRequest`: everything up to, not including,
`s.httpClient.Do(req)`.  The result is the request handed to the client. -/
def buildRequest (env : Env) (s : Session) (endpoint method body : String) :
    Except String Request :=
  match prepareEndpoint endpoint method s.requestCredentials.userCredentials.Exchange with
  | .error err => .error err
  | .ok url =>
    match NewRequest env "POST" url body with
    | .error err => .error err
    | .ok req =>
      let xapph := if endpoint = "certLogin" then env.PKG_NAME
        else s.requestCredentials.ApplicationKey
      let h := Header.Set req.Header "X-Application" xapph
      let h := if method = "getDeveloperAppKeys" then Header.Del h "X-Application" else h
      let h := Header.Set h "Accept" "application/json"
      let h := Header.Set h "Content-Type" "application/json"
      let h := if endpoint ≠ "certLogin" ∧ endpoint ≠ "restLogin" then
          Header.Set h "X-Authentication" s.token
        else
          Header.Set h "Content-Type" "application/x-www-form-urlencoded"
      .ok { req with Header := h }

/-- The function `doRequest(s, endpoint, method, body)`, with a record of the
requests it hands to `s.httpClient.Do`: the first component is the returned
`([]byte, error)`, the second the requests sent, in order.  A request is
recorded as soon as it is handed to the client, whatever comes back. -/
def doRequestLogged (env : Env) (s : Session) (endpoint method body : String) :
    Except String String × List Request :=
  match buildRequest env s endpoint method body with
  | .error err => (.error err, [])
  | .ok req =>
    match env.Do s.httpClient req with
    | .error err => (.error err, [req])
    | .ok res =>
      if res.StatusCode ≠ 200 then (.error res.Status, [req])
      else
        match res.Body with
        | .error err => (.error err, [req])
        | .ok data => (.ok data, [req])

/-- The result of `doRequest(s, endpoint, method, body)`. -/
def doRequest (env : Env) (s : Session) (endpoint method body : String) :
    Except String String :=
  (doRequestLogged env s endpoint method body).1

/-- The login endpoint chosen by `NewSession`. -/
def loginEndpoint (credentials : CredentialInterface) : String :=
  match credentials with
  | .nonInteractive _ => "certLogin"
  | .interactive _ => "restLogin"

/-- The session of `NewSession` at the point where the login request is sent:
the client is set and `setRequestCredentials` has run.  The record it starts
from has the zero value where the source has a nil `requestCredentials`
pointer; `setRequestCredentials` overwrites it before anything reads it. -/
def loginSession (credentials : CredentialInterface) (client : Client) : Session :=
  setRequestCredentials
    { token := "",
      credentials := credentials,
      requestCredentials :=
        { userCredentials := { Username := "", Password := "", Exchange := "" },
          ApplicationKey := "" },
      httpClient := client,
      developerApps := none }

/-- The form body `fmt.Sprintf("username=%s&password=%s", ...)`. -/
def loginPayload (s : Session) : String :=
  "username=" ++ s.requestCredentials.userCredentials.Username ++ "&password="
    ++ s.requestCredentials.userCredentials.Password

/-- The function `NewSession(credentials)`: the pair `(*Session, error)`. -/
def NewSession (env : Env) (credentials : CredentialInterface) :
    Option Session × Option String :=
  match getHttpClient env credentials with
  | .error err => (none, some err)
  | .ok client =>
    let session := loginSession credentials client
    match doRequest env session (loginEndpoint credentials) "" (loginPayload session) with
    | .error err => (none, some err)
    | .ok resp =>
      match session.credentials with
      | .interactive _ =>
        match env.unmarshalRestLogin resp with
        | .error err => (none, some err)
        | .ok result =>
          if result.Status ≠ "SUCCESS" then (none, some result.Error)
          else (some { session with token := result.Token }, none)
      | .nonInteractive _ =>
        match env.unmarshalCertLogin resp with
        | .error err => (none, some err)
        | .ok result =>
          if result.Status ≠ "SUCCESS" then (none, some result.Status)
          else (some { session with token := result.Token }, none)

/-! ## Application key (`account.go`) -/

/-- The method `GetDeveloperAppKeys()`, with the record of requests sent. -/
def GetDeveloperAppKeysLogged (env : Env) (s : Session) :
    Except String String × List Request :=
  match doRequestLogged env s "account" "getDeveloperAppKeys" "" with
  | (.error err, sent) => (.error err, sent)
  | (.ok resp, sent) => (.ok resp, sent)

/-- The result of `GetDeveloperAppKeys()`. -/
def GetDeveloperAppKeys (env : Env) (s : Session) : Except String String :=
  (GetDeveloperAppKeysLogged env s).1

/-- The assignment `s.requestCredentials.ApplicationKey = key`.  For
interactive credentials `setRequestCredentials` stored in `requestCredentials`
the very pointer held by `credentials`, so the write shows through both. -/
def setApplicationKey (s : Session) (key : String) : Session :=
  { s with
    requestCredentials := { s.requestCredentials with ApplicationKey := key },
    credentials :=
      match s.credentials with
      | .interactive c => .interactive { c with ApplicationKey := key }
      | .nonInteractive c => .nonInteractive c }

/-- The inner loop of `SetUsedApplication` over `app.AppVersions`. -/
def scanVersions (delay : Bool) (s : Session) (versions : List AppVersion) : Session :=
  versions.foldl
    (fun s v =>
      if v.DelayData != delay || !v.Active then s
      else setApplicationKey s v.ApplicationKey)
    s

/-- The outer loop of `SetUsedApplication` over `*s.developerApps`. -/
def scanApps (name : String) (delay : Bool) (s : Session) (apps : List developerApp) :
    Session :=
  apps.foldl
    (fun s app =>
      if app.AppName ≠ name then s
      else scanVersions delay s app.AppVersions)
    s

/-- The first block of `SetUsedApplication`: fill the cache when it is nil.
With the record of requests sent. -/
def loadDeveloperAppsLogged (env : Env) (s : Session) :
    Except String Session × List Request :=
  match s.developerApps with
  | some _ => (.ok s, [])
  | none =>
    match GetDeveloperAppKeysLogged env s with
    | (.error err, sent) => (.error err, sent)
    | (.ok resp, sent) =>
      match env.unmarshalApps resp with
      | .error err => (.error err, sent)
      | .ok apps => (.ok { s with developerApps := some apps }, sent)

/-- The session left by the first block of `SetUsedApplication`, or its
error. -/
def loadDeveloperApps (env : Env) (s : Session) : Except String Session :=
  (loadDeveloperAppsLogged env s).1

/-- The method `(s *Session) SetUsedApplication(name, delay)`: the session
after the call and the returned error (`none` for `nil`), with the record of
requests sent during the call.  The loops send nothing. -/
def SetUsedApplicationLogged (env : Env) (s : Session) (name : String) (delay : Bool) :
    (Session × Option String) × List Request :=
  match loadDeveloperAppsLogged env s with
  | (.error err, sent) => ((s, some err), sent)
  | (.ok s1, sent) =>
    let s2 := scanApps name delay s1 (s1.developerApps.getD [])
    if s2.requestCredentials.ApplicationKey = "" then
      ((s2, some (name ++ " application not found")), sent)
    else
      ((s2, none), sent)

/-- The method `(s *Session) SetUsedApplication(name, delay)`: the session
after the call and the returned error (`none` for `nil`). -/
def SetUsedApplication (env : Env) (s : Session) (name : String) (delay : Bool) :
    Session × Option String :=
  (SetUsedApplicationLogged env s name delay).1

/-- Specification side, not read off the loops: a version record has
`DelayData == delay` and `Active == true`. -/
def accepted (delay : Bool) (v : AppVersion) : Bool :=
  v.DelayData == delay && v.Active

/-- Specification side, not read off the loops: the version records that
match `(name, delay)`, in iteration order, namely applications named `name` in
list order and within each its versions with `DelayData == delay` and
`Active`. -/
def matchingVersions (name : String) (delay : Bool) (apps : List developerApp) :
    List AppVersion :=
  ((apps.filter (fun app => app.AppName = name)).map
      (fun app => app.AppVersions.filter (accepted delay))).flatten

/-! ## Betting calls (`betting.go`, `betRequest`) -/

/-- How a call ends: it returns to its caller, or the process is terminated by
`os.Exit(code)` and nothing is returned. -/
inductive Outcome (α : Type) where
  | returned (a : α)
  | exited (code : Nat)
  deriving DecidableEq, Repr

/-- The method `(l *log.Logger) Fatal(v ...)`: prints, then calls `os.Exit(1)`.  The
argument is the rest of the function after the call, which never runs. -/
def Logger.Fatal {α : Type} (_rest : Outcome α) : Outcome α :=
  .exited 1

/-- The three pointers a `VisitorFunc` receives: session, query, decoded
result. -/
structure BetCall (Q R : Type) where
  s : Session
  q : Q
  r : R

/-- The type `VisitorFunc`: caller code run on the three pointers, which it may write
through. -/
abbrev VisitorFunc (Q R : Type) := BetCall Q R → BetCall Q R

/-- The function `betRequest(method, s, q, r, fn...)`.  `q` is `none` for a nil query;
`marshal` is `json.Marshal` at the query type and `unmarshal` is
`json.Unmarshal(resp, r)` at the type behind `r`.  The result is the returned
error, or on success the state of the three pointers after the visitors. -/
def betRequest {Q R : Type} (env : Env) (marshal : Q → Except String String)
    (unmarshal : String → R → Except String R) (method : String) (s : Session)
    (q : Option Q) (r : R) (fn : List (VisitorFunc Q R)) :
    Outcome (Except String (BetCall Q R)) :=
  match q with
  | none =>
    Logger.Fatal (.returned (.error "query parameter can not be nil"))
  | some q =>
    match marshal q with
    | .error err => Logger.Fatal (.returned (.error err))
    | .ok p =>
      match doRequest env s "betting" method p with
      | .error err => Logger.Fatal (.returned (.error err))
      | .ok resp =>
        match unmarshal resp r with
        | .error err => Logger.Fatal (.returned (.error err))
        | .ok r1 =>
          .returned (.ok (fn.foldl (fun c f => f c) { s := s, q := q, r := r1 }))

/-! ## Worked instances -/

/-- The body `{"status":"SUCCESS","token":"T"}`. -/
def loginSuccessBody : String := "\x7b\"status\":\"SUCCESS\",\"token\":\"T\"\x7d"

/-- The body `{"status":"FAIL","error":"INVALID_CREDS"}`. -/
def loginFailBody : String := "\x7b\"status\":\"FAIL\",\"error\":\"INVALID_CREDS\"\x7d"

/-- An environment for worked instances: every file exists, every URL parses,
the server answers `200 OK` with `body`, and the decoders know the two login
bodies above (anything else is a decoding error). -/
def sampleEnv (body : String) : Env :=
  { PKG_NAME := "betfair",
    statNotExist := fun _ => none,
    LoadX509KeyPair := fun crt _ => .ok crt,
    newRequestError := fun _ => none,
    Do := fun _ _ => .ok { Status := "200 OK", StatusCode := 200, Body := .ok body },
    unmarshalRestLogin := fun resp =>
      if resp = loginSuccessBody then
        .ok { Token := "T", Product := "", Status := "SUCCESS", Error := "" }
      else if resp = loginFailBody then
        .ok { Token := "", Product := "", Status := "FAIL", Error := "INVALID_CREDS" }
      else .error "invalid character",
    unmarshalCertLogin := fun _ => .error "invalid character",
    unmarshalApps := fun _ => .error "invalid character" }

/-- The credential of `NewCredentials("user", "pass", "UK", "K0")`. -/
def sampleCredentials : InteractiveCredentials :=
  { userCredentials := { Username := "user", Password := "pass", Exchange := "UK" },
    ApplicationKey := "K0" }

/-- A logged-in interactive session with token `"TOKEN"`, application key
`"K0"` and the given cache. -/
def sampleSession (apps : Option (List developerApp)) : Session :=
  { token := "TOKEN",
    credentials := .interactive sampleCredentials,
    requestCredentials := sampleCredentials,
    httpClient := { Transport := none },
    developerApps := apps }

/-- A version record with the given key and flags; the other fields are
fixed. -/
def sampleVersion (key : String) (delay active : Bool) : AppVersion :=
  { Owner := "owner", VersionId := 1, Version := "1.0", ApplicationKey := key,
    DelayData := delay, SubscriptionRequired := false, OwnerManaged := false,
    Active := active }

/-- A cached list: `"MyApp"` with two active versions, delayed key `"K1"` and
live key `"K2"`. -/
def sampleApps : List developerApp :=
  [ { AppName := "MyApp", AppId := 7,
      AppVersions := [sampleVersion "K1" true true, sampleVersion "K2" false true] } ]

/-- The credential of `NewCredentials("user", "pass", "UK", "crt", "key")`. -/
def sampleCertCredentials : NonInteractiveCredentials :=
  { userCredentials := { Username := "user", Password := "pass", Exchange := "UK" },
    CertPath := { CrtFile := "crt", KeyFile := "key" } }

/-- The environment `sampleEnv ""` with a client whose every round trip fails. -/
def offlineEnv : Env :=
  { sampleEnv "" with Do := fun _ _ => .error "dial tcp: connection refused" }

end Betfair

/-! # Theorems -/

namespace Betfair

/-! ## Results without the record of requests -/

/-- The result of `doRequest`, read off the source. -/
theorem doRequest_eq (env : Env) (s : Session) (endpoint method body : String) :
    doRequest env s endpoint method body =
      match buildRequest env s endpoint method body with
      | .error err => .error err
      | .ok req =>
        match env.Do s.httpClient req with
        | .error err => .error err
        | .ok res =>
          if res.StatusCode ≠ 200 then .error res.Status
          else
            match res.Body with
            | .error err => .error err
            | .ok data => .ok data := by
  unfold doRequest doRequestLogged
  cases buildRequest env s endpoint method body with
  | error err => rfl
  | ok req =>
    simp only
    cases env.Do s.httpClient req with
    | error err => rfl
    | ok res =>
      simp only
      by_cases hs : res.StatusCode ≠ 200
      · rw [if_pos hs, if_pos hs]
      · rw [if_neg hs, if_neg hs]
        cases res.Body <;> rfl

/-- The result of `GetDeveloperAppKeys` is that of `doRequest` on the account
endpoint with method `getDeveloperAppKeys` and an empty body. -/
theorem GetDeveloperAppKeys_eq (env : Env) (s : Session) :
    GetDeveloperAppKeys env s = doRequest env s "account" "getDeveloperAppKeys" "" := by
  unfold GetDeveloperAppKeys GetDeveloperAppKeysLogged doRequest
  rcases doRequestLogged env s "account" "getDeveloperAppKeys" "" with ⟨r, sent⟩
  cases r <;> rfl

/-- The result of the first block of `SetUsedApplication`, read off the
source. -/
theorem loadDeveloperApps_eq (env : Env) (s : Session) :
    loadDeveloperApps env s =
      match s.developerApps with
      | some _ => .ok s
      | none =>
        match GetDeveloperAppKeys env s with
        | .error err => .error err
        | .ok resp =>
          match env.unmarshalApps resp with
          | .error err => .error err
          | .ok apps => .ok { s with developerApps := some apps } := by
  unfold loadDeveloperApps loadDeveloperAppsLogged GetDeveloperAppKeys
  cases s.developerApps with
  | some apps => rfl
  | none =>
    simp only
    rcases GetDeveloperAppKeysLogged env s with ⟨r, sent⟩
    cases r with
    | error err => rfl
    | ok resp =>
      simp only
      cases env.unmarshalApps resp <;> rfl

/-- The result of `SetUsedApplication`, read off the source. -/
theorem SetUsedApplication_eq (env : Env) (s : Session) (name : String) (delay : Bool) :
    SetUsedApplication env s name delay =
      match loadDeveloperApps env s with
      | .error err => (s, some err)
      | .ok s1 =>
        if (scanApps name delay s1 (s1.developerApps.getD [])).requestCredentials.ApplicationKey
            = "" then
          (scanApps name delay s1 (s1.developerApps.getD []),
            some (name ++ " application not found"))
        else
          (scanApps name delay s1 (s1.developerApps.getD []), none) := by
  unfold SetUsedApplication SetUsedApplicationLogged loadDeveloperApps
  rcases loadDeveloperAppsLogged env s with ⟨r, sent⟩
  cases r with
  | error err => rfl
  | ok s1 =>
    simp only
    split <;> rfl

/-! ## Endpoint registry -/

/-- The keys of the registry are exactly the two regions. -/
theorem endpoints_keys : endpoints.map Prod.fst = ["UK", "AU"] := rfl

/-- A region is a key of the registry exactly when it is `"UK"` or `"AU"`. -/
theorem mem_endpoints_keys (exchange : String) :
    exchange ∈ endpoints.map Prod.fst ↔ exchange = "UK" ∨ exchange = "AU" := by
  simp [endpoints_keys]

/-- Each region's table has exactly the four logical endpoints. -/
theorem endpointsAt_keys (exchange : String) (h : exchange ∈ endpoints.map Prod.fst) :
    (endpointsAt exchange).map Prod.fst = ["certLogin", "restLogin", "betting", "account"] := by
  rcases (mem_endpoints_keys exchange).1 h with rfl | rfl <;> rfl

/-- A key misses in an association list exactly when it is not among the
keys. -/
theorem lookup_eq_none_iff_not_mem_keys {β : Type} (l : List (String × β)) (k : String) :
    l.lookup k = none ↔ k ∉ l.map Prod.fst := by
  induction l with
  | nil => simp
  | cons p l ih =>
    obtain ⟨a, b⟩ := p
    by_cases hk : k = a
    · subst hk
      simp
    · have hb : (k == a) = false := by simpa using hk
      simp [List.lookup_cons, hb, ih, hk]

/-- An absent region reads as the empty table. -/
theorem endpointsAt_unknown (exchange : String) (h : exchange ∉ endpoints.map Prod.fst) :
    endpointsAt exchange = [] := by
  have hn : endpoints.lookup exchange = none :=
    (lookup_eq_none_iff_not_mem_keys endpoints exchange).2 h
  simp [endpointsAt, hn]

/-- The lookup misses exactly when the endpoint is no key of the region's
table. -/
theorem endpointLookup_eq_none_iff (exchange endpoint : String) :
    endpointLookup exchange endpoint = none ↔
      endpoint ∉ (endpointsAt exchange).map Prod.fst :=
  lookup_eq_none_iff_not_mem_keys (endpointsAt exchange) endpoint

/-- A hit in the registry on a login endpoint gives the base URL for every
method. -/
theorem prepareEndpoint_login_of_lookup (endpoint method exchange url : String)
    (hl : endpointLookup exchange endpoint = some url)
    (he : endpoint = "certLogin" ∨ endpoint = "restLogin") :
    prepareEndpoint endpoint method exchange = .ok url := by
  unfold prepareEndpoint
  rcases he with rfl | rfl <;> simp [hl]

/-- A hit in the registry on any other endpoint gives the base URL, the method
and a closing slash. -/
theorem prepareEndpoint_service_of_lookup (endpoint method exchange url : String)
    (hl : endpointLookup exchange endpoint = some url)
    (hc : endpoint ≠ "certLogin") (hr : endpoint ≠ "restLogin") :
    prepareEndpoint endpoint method exchange = .ok (url ++ (method ++ "/")) := by
  unfold prepareEndpoint
  simp [hl, hc, hr]

/-- C1 (evaluation at the input of `Test_prepareEndpoint`):
`prepareEndpoint("betting", "listEvents", "UK")` succeeds with the base URL,
the method and a trailing slash, which is not the URL the test expects (the
base URL followed by the method and nothing else). -/
theorem prepareEndpoint_listEvents_trailing_slash :
    prepareEndpoint "betting" "listEvents" "UK"
        = .ok "https://api.betfair.com/exchange/betting/rest/v1.0/listEvents/"
      ∧ prepareEndpoint "betting" "listEvents" "UK"
        ≠ .ok "https://api.betfair.com/exchange/betting/rest/v1.0/listEvents" := by
  refine ⟨rfl, ?_⟩
  intro h
  have h1 : prepareEndpoint "betting" "listEvents" "UK"
      = .ok "https://api.betfair.com/exchange/betting/rest/v1.0/listEvents/" := rfl
  rw [h1] at h
  injection h with h
  exact absurd h (by decide)

/-- C8: `prepareEndpoint` fails, with the `invalid endpoint params` message,
if and only if the region is no key of the registry or the endpoint is no key
of the region's table; the registry has exactly the regions UK and AU, each
with exactly the endpoints certLogin, restLogin, betting and account; and with
region `"ZZ"` it fails for every endpoint and method (as an error result: the
function is total). -/
theorem prepareEndpoint_fails_iff_unknown (endpoint method exchange : String) :
    (prepareEndpoint endpoint method exchange
          = .error (invalidEndpointMsg endpoint method exchange)
        ↔ (exchange ∉ endpoints.map Prod.fst
            ∨ endpoint ∉ (endpointsAt exchange).map Prod.fst))
      ∧ ((∃ url, prepareEndpoint endpoint method exchange = .ok url)
        ↔ ¬ (exchange ∉ endpoints.map Prod.fst
            ∨ endpoint ∉ (endpointsAt exchange).map Prod.fst))
      ∧ endpoints.map Prod.fst = ["UK", "AU"]
      ∧ (endpointsAt "UK").map Prod.fst = ["certLogin", "restLogin", "betting", "account"]
      ∧ (endpointsAt "AU").map Prod.fst = ["certLogin", "restLogin", "betting", "account"]
      ∧ prepareEndpoint endpoint method "ZZ"
          = .error (invalidEndpointMsg endpoint method "ZZ") := by
  have key : (exchange ∉ endpoints.map Prod.fst
        ∨ endpoint ∉ (endpointsAt exchange).map Prod.fst)
      ↔ endpointLookup exchange endpoint = none := by
    rw [endpointLookup_eq_none_iff]
    constructor
    · rintro (h | h)
      · simp [endpointsAt_unknown exchange h]
      · exact h
    · exact Or.inr
  refine ⟨?_, ?_, rfl, rfl, rfl, ?_⟩
  · rw [key]
    unfold prepareEndpoint
    cases hl : endpointLookup exchange endpoint with
    | none => simp
    | some url =>
      by_cases hc : endpoint ≠ "certLogin" ∧ endpoint ≠ "restLogin" <;> simp [hc]
  · rw [key]
    unfold prepareEndpoint
    cases hl : endpointLookup exchange endpoint with
    | none => simp
    | some url =>
      by_cases hc : endpoint ≠ "certLogin" ∧ endpoint ≠ "restLogin" <;> simp [hc]
  · have hz : endpointLookup "ZZ" endpoint = none := by
      rw [endpointLookup_eq_none_iff, endpointsAt_unknown "ZZ" (by decide)]
      simp
    unfold prepareEndpoint
    simp [hz]

/-- C9: for a login endpoint and a known region the registry has a base URL,
and `prepareEndpoint` returns it unchanged for every method argument. -/
theorem prepareEndpoint_login_ignores_method (endpoint exchange : String)
    (hregion : exchange ∈ endpoints.map Prod.fst)
    (hlogin : endpoint = "certLogin" ∨ endpoint = "restLogin") :
    ∃ base, endpointLookup exchange endpoint = some base
      ∧ ∀ m1 m2 : String,
          prepareEndpoint endpoint m1 exchange = .ok base
            ∧ prepareEndpoint endpoint m2 exchange = .ok base := by
  have hex : ∃ base, endpointLookup exchange endpoint = some base := by
    rcases (mem_endpoints_keys exchange).1 hregion with rfl | rfl <;>
      rcases hlogin with rfl | rfl <;> exact ⟨_, rfl⟩
  obtain ⟨base, hb⟩ := hex
  exact ⟨base, hb, fun m1 m2 =>
    ⟨prepareEndpoint_login_of_lookup endpoint m1 exchange base hb hlogin,
     prepareEndpoint_login_of_lookup endpoint m2 exchange base hb hlogin⟩⟩

/-- Instance of C9 at the certificate login of region UK. -/
theorem prepareEndpoint_login_ignores_method_witness :
    "UK" ∈ endpoints.map Prod.fst
      ∧ ∃ base, endpointLookup "UK" "certLogin" = some base
        ∧ ∀ m1 m2 : String,
            prepareEndpoint "certLogin" m1 "UK" = .ok base
              ∧ prepareEndpoint "certLogin" m2 "UK" = .ok base :=
  ⟨by decide, prepareEndpoint_login_ignores_method "certLogin" "UK" (by decide) (Or.inl rfl)⟩

/-! ## Credentials -/

/-- C7: `NewCredentials` is determined by the argument count.  Four strings
give an interactive credential with those fields in order, five strings give a
non-interactive credential with those fields in order, whatever the strings
are; an error is returned if and only if the count is neither 4 nor 5, and
then no credential is returned. -/
theorem NewCredentials_by_arity :
    (∀ u p x k : String,
        NewCredentials [u, p, x, k]
          = (some (.interactive
              { userCredentials := { Username := u, Password := p, Exchange := x },
                ApplicationKey := k }), none))
      ∧ (∀ u p x c y : String,
        NewCredentials [u, p, x, c, y]
          = (some (.nonInteractive
              { userCredentials := { Username := u, Password := p, Exchange := x },
                CertPath := { CrtFile := c, KeyFile := y } }), none))
      ∧ (∀ params : List String,
        (NewCredentials params).2 ≠ none ↔ (params.length ≠ 4 ∧ params.length ≠ 5))
      ∧ (∀ params : List String,
        (NewCredentials params).2 ≠ none →
          (NewCredentials params).1 = none
            ∧ (NewCredentials params).2 = some "invalid credential params") := by
  refine ⟨fun u p x k => rfl, fun u p x c y => rfl, ?_, ?_⟩
  · intro params
    by_cases h4 : params.length = 4
    · simp [NewCredentials, h4]
    · by_cases h5 : params.length = 5
      · simp [NewCredentials, h5]
      · simp [NewCredentials, h4, h5]
  · intro params
    by_cases h4 : params.length = 4
    · simp [NewCredentials, h4]
    · by_cases h5 : params.length = 5
      · simp [NewCredentials, h5]
      · simp [NewCredentials, h4, h5]

/-! ## Request headers -/

/-- After `Set`, the key reads as the value set. -/
theorem Header.get_set_self (h : Header) (key value : String) :
    Header.Get (Header.Set h key value) key = some value := by
  simp [Header.Get, Header.Set]

/-- After `Del`, the key is absent. -/
theorem Header.get_del_self (h : Header) (key : String) :
    Header.Get (Header.Del h key) key = none := by
  rw [Header.Get, lookup_eq_none_iff_not_mem_keys]
  intro hm
  obtain ⟨p, hp, hk⟩ := List.mem_map.1 hm
  have := (List.mem_filter.1 hp).2
  simp [hk] at this

/-- Deleting a key leaves every other key as it was. -/
theorem Header.get_del_ne (h : Header) (key other : String) (hne : other ≠ key) :
    Header.Get (Header.Del h key) other = Header.Get h other := by
  induction h with
  | nil => rfl
  | cons p h ih =>
    obtain ⟨a, b⟩ := p
    simp only [Header.Get, Header.Del, decide_not] at ih ⊢
    by_cases ha : a = key
    · subst ha
      have hb : (other == a) = false := by simpa using hne
      simp [List.filter_cons, List.lookup_cons, hb, ih]
    · by_cases ho : other = a
      · subst ho
        simp [List.filter_cons, ha]
      · have hb : (other == a) = false := by simpa using ho
        simp [List.filter_cons, List.lookup_cons, ha, hb, ih]

/-- Setting a key leaves every other key as it was. -/
theorem Header.get_set_ne (h : Header) (key value other : String) (hne : other ≠ key) :
    Header.Get (Header.Set h key value) other = Header.Get h other := by
  have hb : (other == key) = false := by simpa using hne
  have := Header.get_del_ne h key other hne
  simp only [Header.Get] at this
  simp [Header.Get, Header.Set, List.lookup_cons, hb, this]

/-- The header of a request built by `buildRequest`, as the chain of `Set` and
`Del` calls of `doRequest` on the empty header. -/
theorem buildRequest_header (env : Env) (s : Session) (endpoint method body : String)
    (req : Request) (h : buildRequest env s endpoint method body = .ok req) :
    req.Header =
      (let xapph := if endpoint = "certLogin" then env.PKG_NAME
          else s.requestCredentials.ApplicationKey
       let h := Header.Set [] "X-Application" xapph
       let h := if method = "getDeveloperAppKeys" then Header.Del h "X-Application" else h
       let h := Header.Set h "Accept" "application/json"
       let h := Header.Set h "Content-Type" "application/json"
       if endpoint ≠ "certLogin" ∧ endpoint ≠ "restLogin" then
         Header.Set h "X-Authentication" s.token
       else
         Header.Set h "Content-Type" "application/x-www-form-urlencoded") := by
  unfold buildRequest at h
  cases hp : prepareEndpoint endpoint method s.requestCredentials.userCredentials.Exchange with
  | error e => simp [hp] at h
  | ok url =>
    simp only [hp] at h
    unfold NewRequest at h
    cases hn : env.newRequestError url with
    | some e => simp [hn] at h
    | none =>
      simp only [hn] at h
      injection h with h
      rw [← h]

/-- The request `doRequest` hands to the client is the one of `buildRequest`:
once that request is built, the result of `doRequest` is read off the
response to it. -/
theorem doRequest_of_buildRequest (env : Env) (s : Session) (endpoint method body : String)
    (req : Request) (h : buildRequest env s endpoint method body = .ok req) :
    doRequest env s endpoint method body =
      match env.Do s.httpClient req with
      | .error err => .error err
      | .ok res =>
        if res.StatusCode ≠ 200 then .error res.Status
        else
          match res.Body with
          | .error err => .error err
          | .ok data => .ok data := by
  rw [doRequest_eq]
  simp only [h]

/-- C4: a request built by `doRequest` for an endpoint other than the two
login endpoints carries `X-Authentication` equal to the session token; when the
method is not `getDeveloperAppKeys` it carries `X-Application` equal to the
application key of the request credentials, and when the method is
`getDeveloperAppKeys` it has no `X-Application` header at all. -/
theorem buildRequest_authenticated_headers (env : Env) (s : Session)
    (endpoint method body : String) (req : Request)
    (hc : endpoint ≠ "certLogin") (hr : endpoint ≠ "restLogin")
    (h : buildRequest env s endpoint method body = .ok req) :
    Header.Get req.Header "X-Authentication" = some s.token
      ∧ (method ≠ "getDeveloperAppKeys" →
          Header.Get req.Header "X-Application"
            = some s.requestCredentials.ApplicationKey)
      ∧ (method = "getDeveloperAppKeys" →
          Header.Get req.Header "X-Application" = none) := by
  rw [buildRequest_header env s endpoint method body req h]
  simp only [hc, hr, ne_eq, not_false_eq_true, and_self, if_true, if_false]
  refine ⟨Header.get_set_self _ _ _, ?_, ?_⟩
  · intro hm
    rw [Header.get_set_ne _ _ _ _ (by decide), Header.get_set_ne _ _ _ _ (by decide),
      Header.get_set_ne _ _ _ _ (by decide)]
    simp only [hm, if_false]
    exact Header.get_set_self _ _ _
  · intro hm
    rw [Header.get_set_ne _ _ _ _ (by decide), Header.get_set_ne _ _ _ _ (by decide),
      Header.get_set_ne _ _ _ _ (by decide)]
    simp only [hm, if_true]
    exact Header.get_del_self _ _

/-- Instance of C4: the request of `GetDeveloperAppKeys` on a session with
token `"TOKEN"` and application key `"K0"`. -/
theorem buildRequest_authenticated_headers_witness :
    buildRequest (sampleEnv "") (sampleSession none) "account" "getDeveloperAppKeys" ""
        = .ok
          { Method := "POST",
            URL := "https://api.betfair.com/exchange/account/rest/v1.0/getDeveloperAppKeys/",
            Header := [("X-Authentication", "TOKEN"), ("Content-Type", "application/json"),
              ("Accept", "application/json")],
            Body := "" }
      ∧ Header.Get [("X-Authentication", "TOKEN"), ("Content-Type", "application/json"),
            ("Accept", "application/json")] "X-Authentication" = some "TOKEN"
      ∧ Header.Get [("X-Authentication", "TOKEN"), ("Content-Type", "application/json"),
            ("Accept", "application/json")] "X-Application" = none :=
  have h := buildRequest_authenticated_headers (sampleEnv "") (sampleSession none)
    "account" "getDeveloperAppKeys" ""
    { Method := "POST",
      URL := "https://api.betfair.com/exchange/account/rest/v1.0/getDeveloperAppKeys/",
      Header := [("X-Authentication", "TOKEN"), ("Content-Type", "application/json"),
        ("Accept", "application/json")],
      Body := "" }
    (by decide) (by decide) rfl
  ⟨rfl, h.1, h.2.2 rfl⟩

/-- The headers of a built request, by endpoint kind.  For a login endpoint:
`Content-Type` is `application/x-www-form-urlencoded`, `Accept` is
`application/json`, `X-Authentication` is absent, and `X-Application` is the
package identifier (`certLogin`) or the application key of the request
credentials (`restLogin`) unless the method is `getDeveloperAppKeys`, which
deletes it.  For any other endpoint `Content-Type` is `application/json`. -/
theorem buildRequest_headers_by_endpoint (env : Env) (s : Session)
    (endpoint method body : String) (req : Request)
    (h : buildRequest env s endpoint method body = .ok req) :
    ((endpoint = "certLogin" ∨ endpoint = "restLogin") →
        Header.Get req.Header "Content-Type" = some "application/x-www-form-urlencoded"
          ∧ Header.Get req.Header "Accept" = some "application/json"
          ∧ Header.Get req.Header "X-Authentication" = none
          ∧ (method ≠ "getDeveloperAppKeys" → endpoint = "certLogin" →
              Header.Get req.Header "X-Application" = some env.PKG_NAME)
          ∧ (method ≠ "getDeveloperAppKeys" → endpoint = "restLogin" →
              Header.Get req.Header "X-Application"
                = some s.requestCredentials.ApplicationKey)
          ∧ (method = "getDeveloperAppKeys" →
              Header.Get req.Header "X-Application" = none))
      ∧ (endpoint ≠ "certLogin" → endpoint ≠ "restLogin" →
          Header.Get req.Header "Content-Type" = some "application/json") := by
  rw [buildRequest_header env s endpoint method body req h]
  constructor
  · intro hlogin
    have hnot : ¬ (endpoint ≠ "certLogin" ∧ endpoint ≠ "restLogin") := by
      rcases hlogin with rfl | rfl <;> simp
    simp only [hnot, if_false]
    refine ⟨Header.get_set_self _ _ _, ?_, ?_, ?_, ?_, ?_⟩
    · rw [Header.get_set_ne _ _ _ _ (by decide), Header.get_set_ne _ _ _ _ (by decide)]
      exact Header.get_set_self _ _ _
    · rw [Header.get_set_ne _ _ _ _ (by decide), Header.get_set_ne _ _ _ _ (by decide),
        Header.get_set_ne _ _ _ _ (by decide)]
      by_cases hm : method = "getDeveloperAppKeys"
      · simp only [hm, if_true]
        rw [Header.get_del_ne _ _ _ (by decide), Header.get_set_ne _ _ _ _ (by decide)]
        rfl
      · simp only [hm, if_false]
        rw [Header.get_set_ne _ _ _ _ (by decide)]
        rfl
    · intro hm he
      rw [Header.get_set_ne _ _ _ _ (by decide), Header.get_set_ne _ _ _ _ (by decide),
        Header.get_set_ne _ _ _ _ (by decide)]
      simp only [hm, he, if_true, if_false]
      exact Header.get_set_self _ _ _
    · intro hm he
      have hne : endpoint ≠ "certLogin" := by rw [he]; decide
      rw [Header.get_set_ne _ _ _ _ (by decide), Header.get_set_ne _ _ _ _ (by decide),
        Header.get_set_ne _ _ _ _ (by decide)]
      simp only [hm, hne, if_false]
      exact Header.get_set_self _ _ _
    · intro hm
      rw [Header.get_set_ne _ _ _ _ (by decide), Header.get_set_ne _ _ _ _ (by decide),
        Header.get_set_ne _ _ _ _ (by decide)]
      simp only [hm, if_true]
      exact Header.get_del_self _ _
  · intro hc hr
    simp only [hc, hr, ne_eq, not_false_eq_true, and_self, if_true]
    rw [Header.get_set_ne _ _ _ _ (by decide)]
    exact Header.get_set_self _ _ _

/-- C10: a request built by `doRequest` for one of the two login endpoints has
`Content-Type` `application/x-www-form-urlencoded`, `Accept`
`application/json` and no `X-Authentication` header, whatever the session token
is; its `X-Application` is the package identifier for `certLogin`, whatever the
application key of the session, and the application key of the request
credentials for `restLogin` (for every method a login call carries: only
`getDeveloperAppKeys` removes the header, and that method is sent to the
account endpoint alone).  For every other endpoint `Content-Type` is
`application/json`.  In particular the login request `NewSession` builds, with
the empty method, has these headers for both kinds of credential. -/
theorem buildRequest_login_headers (env : Env) (s : Session)
    (endpoint method body : String) (req : Request)
    (h : buildRequest env s endpoint method body = .ok req) :
    ((endpoint = "certLogin" ∨ endpoint = "restLogin") →
        Header.Get req.Header "Content-Type" = some "application/x-www-form-urlencoded"
          ∧ Header.Get req.Header "Accept" = some "application/json"
          ∧ Header.Get req.Header "X-Authentication" = none
          ∧ (method ≠ "getDeveloperAppKeys" → endpoint = "certLogin" →
              Header.Get req.Header "X-Application" = some env.PKG_NAME)
          ∧ (method ≠ "getDeveloperAppKeys" → endpoint = "restLogin" →
              Header.Get req.Header "X-Application"
                = some s.requestCredentials.ApplicationKey))
      ∧ (endpoint ≠ "certLogin" → endpoint ≠ "restLogin" →
          Header.Get req.Header "Content-Type" = some "application/json")
      ∧ (∀ (credentials : CredentialInterface) (client : Client) (login : Request),
          buildRequest env (loginSession credentials client) (loginEndpoint credentials) ""
              (loginPayload (loginSession credentials client)) = .ok login →
            Header.Get login.Header "Content-Type"
                = some "application/x-www-form-urlencoded"
              ∧ Header.Get login.Header "Accept" = some "application/json"
              ∧ Header.Get login.Header "X-Authentication" = none
              ∧ Header.Get login.Header "X-Application"
                  = some (match credentials with
                      | .nonInteractive _ => env.PKG_NAME
                      | .interactive c => c.ApplicationKey)) := by
  have hgen := buildRequest_headers_by_endpoint env s endpoint method body req h
  refine ⟨fun hl => ?_, hgen.2, ?_⟩
  · have hlog := hgen.1 hl
    exact ⟨hlog.1, hlog.2.1, hlog.2.2.1, hlog.2.2.2.1, hlog.2.2.2.2.1⟩
  · intro credentials client login hlogin
    cases credentials with
    | interactive c =>
      have hlog := (buildRequest_headers_by_endpoint env _ _ _ _ login hlogin).1 (Or.inr rfl)
      exact ⟨hlog.1, hlog.2.1, hlog.2.2.1, hlog.2.2.2.2.1 (by decide) rfl⟩
    | nonInteractive c =>
      have hlog := (buildRequest_headers_by_endpoint env _ _ _ _ login hlogin).1 (Or.inl rfl)
      exact ⟨hlog.1, hlog.2.1, hlog.2.2.1, hlog.2.2.2.1 (by decide) rfl⟩

/-- Instance of C10: the login request `NewSession` sends for the interactive
credential `sampleCredentials`, and the one it sends for the certificate
credential `sampleCertCredentials`. -/
theorem buildRequest_login_headers_witness :
    buildRequest (sampleEnv "") (sampleSession none) "restLogin" ""
          "username=user&password=pass"
        = .ok
          { Method := "POST",
            URL := "https://identitysso.betfair.com/api/login",
            Header := [("Content-Type", "application/x-www-form-urlencoded"),
              ("Accept", "application/json"), ("X-Application", "K0")],
            Body := "username=user&password=pass" }
      ∧ Header.Get [("Content-Type", "application/x-www-form-urlencoded"),
            ("Accept", "application/json"), ("X-Application", "K0")] "X-Application"
          = some "K0"
      ∧ buildRequest (sampleEnv "")
          (loginSession (.nonInteractive sampleCertCredentials) { Transport := none })
          "certLogin" "" "username=user&password=pass"
        = .ok
          { Method := "POST",
            URL := "https://identitysso-api.betfair.com/api/certlogin",
            Header := [("Content-Type", "application/x-www-form-urlencoded"),
              ("Accept", "application/json"), ("X-Application", "betfair")],
            Body := "username=user&password=pass" }
      ∧ Header.Get [("Content-Type", "application/x-www-form-urlencoded"),
            ("Accept", "application/json"), ("X-Application", "betfair")] "X-Application"
          = some "betfair" :=
  have h := buildRequest_login_headers (sampleEnv "") (sampleSession none) "restLogin" ""
    "username=user&password=pass"
    { Method := "POST",
      URL := "https://identitysso.betfair.com/api/login",
      Header := [("Content-Type", "application/x-www-form-urlencoded"),
        ("Accept", "application/json"), ("X-Application", "K0")],
      Body := "username=user&password=pass" }
    rfl
  ⟨rfl, (h.1 (Or.inr rfl)).2.2.2.2 (by decide) rfl, rfl,
    (h.2.2 (.nonInteractive sampleCertCredentials) { Transport := none }
      { Method := "POST",
        URL := "https://identitysso-api.betfair.com/api/certlogin",
        Header := [("Content-Type", "application/x-www-form-urlencoded"),
          ("Accept", "application/json"), ("X-Application", "betfair")],
        Body := "username=user&password=pass" }
      rfl).2.2.2⟩

/-! ## Login -/

/-- The function `setRequestCredentials` leaves the `credentials` field alone. -/
theorem loginSession_credentials (credentials : CredentialInterface) (client : Client) :
    (loginSession credentials client).credentials = credentials := by
  cases credentials <;> rfl

/-- Whenever `NewSession` returns an error it returns no session. -/
theorem NewSession_error_no_session (env : Env) (credentials : CredentialInterface)
    (h : (NewSession env credentials).2 ≠ none) : (NewSession env credentials).1 = none := by
  unfold NewSession at h ⊢
  cases hc : getHttpClient env credentials with
  | error e => rfl
  | ok client =>
    simp only [hc] at h ⊢
    cases hd : doRequest env (loginSession credentials client) (loginEndpoint credentials) ""
        (loginPayload (loginSession credentials client)) with
    | error e => rfl
    | ok resp =>
      simp only [hd, loginSession_credentials] at h ⊢
      cases credentials with
      | interactive c =>
        simp only at h ⊢
        cases hu : env.unmarshalRestLogin resp with
        | error e => rfl
        | ok result =>
          simp only [hu] at h ⊢
          by_cases hs : result.Status = "SUCCESS"
          · simp [hs] at h
          · simp [hs]
      | nonInteractive c =>
        simp only at h ⊢
        cases hu : env.unmarshalCertLogin resp with
        | error e => rfl
        | ok result =>
          simp only [hu] at h ⊢
          by_cases hs : result.Status = "SUCCESS"
          · simp [hs] at h
          · simp [hs]

/-- C5: once the client is built and the login request has returned `resp`,
the decoded response decides `NewSession`.  Interactive: it succeeds iff the
status field is `"SUCCESS"`, with the token field stored as session token, and
otherwise fails with the error field as message.  Non-interactive: it succeeds
iff `loginStatus` is `"SUCCESS"`, with `sessionToken` stored, and otherwise
fails with `loginStatus` as message.  Whenever an error is returned, the
session returned is nil. -/
theorem NewSession_login_outcome (env : Env) (credentials : CredentialInterface)
    (client : Client) (resp : String)
    (hclient : getHttpClient env credentials = .ok client)
    (hresp : doRequest env (loginSession credentials client) (loginEndpoint credentials) ""
        (loginPayload (loginSession credentials client)) = .ok resp) :
    (∀ (c : InteractiveCredentials) (result : RestLoginResult),
        credentials = .interactive c → env.unmarshalRestLogin resp = .ok result →
        NewSession env credentials =
          if result.Status = "SUCCESS" then
            (some { loginSession credentials client with token := result.Token }, none)
          else (none, some result.Error))
      ∧ (∀ (c : NonInteractiveCredentials) (result : CertLoginResult),
        credentials = .nonInteractive c → env.unmarshalCertLogin resp = .ok result →
        NewSession env credentials =
          if result.Status = "SUCCESS" then
            (some { loginSession credentials client with token := result.Token }, none)
          else (none, some result.Status))
      ∧ ((NewSession env credentials).2 ≠ none → (NewSession env credentials).1 = none) := by
  refine ⟨?_, ?_, NewSession_error_no_session env credentials⟩
  · intro c result hcred hu
    subst hcred
    unfold NewSession
    simp only [hclient, hresp, loginSession_credentials, hu]
    by_cases hs : result.Status = "SUCCESS" <;> simp [hs]
  · intro c result hcred hu
    subst hcred
    unfold NewSession
    simp only [hclient, hresp, loginSession_credentials, hu]
    by_cases hs : result.Status = "SUCCESS" <;> simp [hs]

/-- Instance of C5: an interactive login answered with
`{"status":"SUCCESS","token":"T"}` gives a session with token `"T"`. -/
theorem NewSession_login_outcome_witness :
    NewSession (sampleEnv loginSuccessBody) (.interactive sampleCredentials)
      = (some
          { token := "T",
            credentials := .interactive sampleCredentials,
            requestCredentials := sampleCredentials,
            httpClient := { Transport := none },
            developerApps := none }, none) :=
  ((NewSession_login_outcome (sampleEnv loginSuccessBody) (.interactive sampleCredentials)
      { Transport := none } loginSuccessBody rfl rfl).1 sampleCredentials
      { Token := "T", Product := "", Status := "SUCCESS", Error := "" } rfl rfl).trans
    (if_pos rfl)

/-- The failing login of the example: an interactive login answered with
`{"status":"FAIL","error":"INVALID_CREDS"}` returns the error `"INVALID_CREDS"`
and no session. -/
theorem NewSession_invalid_creds :
    NewSession (sampleEnv loginFailBody) (.interactive sampleCredentials)
      = (none, some "INVALID_CREDS") := rfl

/-! ## Application key -/

/-- The test of the inner loop skips a record exactly when the record is not
accepted. -/
theorem skip_eq_not_accept (delay : Bool) (v : AppVersion) :
    (v.DelayData != delay || !v.Active) = !(accepted delay v) := by
  unfold accepted
  cases v.DelayData <;> cases delay <;> cases v.Active <;> rfl

/-- One step of the inner loop. -/
theorem scanVersions_cons (delay : Bool) (s : Session) (v : AppVersion)
    (vs : List AppVersion) :
    scanVersions delay s (v :: vs) =
      scanVersions delay
        (if accepted delay v then setApplicationKey s v.ApplicationKey else s)
        vs := by
  simp only [scanVersions, List.foldl_cons, skip_eq_not_accept]
  cases accepted delay v <;> rfl

/-- One step of the outer loop. -/
theorem scanApps_cons (name : String) (delay : Bool) (s : Session) (app : developerApp)
    (apps : List developerApp) :
    scanApps name delay s (app :: apps) =
      scanApps name delay
        (if app.AppName = name then scanVersions delay s app.AppVersions else s) apps := by
  simp only [scanApps, List.foldl_cons]
  by_cases h : app.AppName = name <;> simp [h]

/-- The last element of `v :: l`, read through a projection. -/
theorem getLast?_cons_map_getD {α β : Type} (f : α → β) (v : α) (l : List α) (d : β) :
    (((v :: l).getLast?).map f).getD d = ((l.getLast?).map f).getD (f v) := by
  rw [List.getLast?_cons]
  cases l.getLast? <;> rfl

/-- After the inner loop the key is that of the last accepted record, or the
key before the loop when no record is accepted. -/
theorem scanVersions_key (delay : Bool) (vs : List AppVersion) (s : Session) :
    (scanVersions delay s vs).requestCredentials.ApplicationKey =
      (((vs.filter (accepted delay)).getLast?).map
        (fun v => v.ApplicationKey)).getD s.requestCredentials.ApplicationKey := by
  induction vs generalizing s with
  | nil => rfl
  | cons v vs ih =>
    rw [scanVersions_cons, ih]
    by_cases h : accepted delay v = true
    · rw [List.filter_cons_of_pos h, if_pos h, getLast?_cons_map_getD]
      rfl
    · rw [List.filter_cons_of_neg h, if_neg h]

/-- One application in front of the list of accepted records. -/
theorem matchingVersions_cons (name : String) (delay : Bool) (app : developerApp)
    (apps : List developerApp) :
    matchingVersions name delay (app :: apps) =
      (if app.AppName = name then
          app.AppVersions.filter (accepted delay)
        else [])
        ++ matchingVersions name delay apps := by
  by_cases h : app.AppName = name <;> simp [matchingVersions, List.filter_cons, h]

/-- After both loops the key is that of the last accepted record in iteration
order, or the key before the loops when there is none. -/
theorem scanApps_key (name : String) (delay : Bool) (apps : List developerApp)
    (s : Session) :
    (scanApps name delay s apps).requestCredentials.ApplicationKey =
      (((matchingVersions name delay apps).getLast?).map
        (fun v => v.ApplicationKey)).getD s.requestCredentials.ApplicationKey := by
  induction apps generalizing s with
  | nil => rfl
  | cons app apps ih =>
    rw [scanApps_cons, ih, matchingVersions_cons, List.getLast?_append]
    by_cases h : app.AppName = name
    · rw [if_pos h, if_pos h, scanVersions_key]
      cases (matchingVersions name delay apps).getLast? <;> rfl
    · rw [if_neg h, if_neg h]
      cases (matchingVersions name delay apps).getLast? <;> rfl

/-- With a populated cache nothing is fetched. -/
theorem loadDeveloperApps_cached (env : Env) (s : Session) (apps : List developerApp)
    (h : s.developerApps = some apps) : loadDeveloperApps env s = .ok s := by
  rw [loadDeveloperApps_eq]
  simp [h]

/-- With a populated cache, `SetUsedApplication` is the two loops followed by
the test of the key against the empty string. -/
theorem SetUsedApplication_cached (env : Env) (s : Session) (name : String) (delay : Bool)
    (apps : List developerApp) (h : s.developerApps = some apps) :
    SetUsedApplication env s name delay =
      (scanApps name delay s apps,
        if (scanApps name delay s apps).requestCredentials.ApplicationKey = "" then
          some (name ++ " application not found")
        else none) := by
  rw [SetUsedApplication_eq, loadDeveloperApps_cached env s apps h]
  simp only [h, Option.getD_some]
  split <;> rfl

/-- C6: with a cached list in which some version record of an application
named `name` has `DelayData == delay` and `Active`, after
`SetUsedApplication(name, delay)` the application key of the request
credentials is the `ApplicationKey` of the last such record in iteration
order. -/
theorem SetUsedApplication_last_match (env : Env) (s : Session) (name : String)
    (delay : Bool) (apps : List developerApp)
    (hcache : s.developerApps = some apps)
    (hmatch : matchingVersions name delay apps ≠ []) :
    (SetUsedApplication env s name delay).1.requestCredentials.ApplicationKey
      = ((matchingVersions name delay apps).getLast hmatch).ApplicationKey := by
  rw [SetUsedApplication_cached env s name delay apps hcache]
  simp only []
  rw [scanApps_key, List.getLast?_eq_getLast _ hmatch]
  rfl

/-- Instance of C6: `"MyApp"` with active versions (delayed, `"K1"`) and
(live, `"K2"`); resolving `("MyApp", true)` sets the key to `"K1"`. -/
theorem SetUsedApplication_last_match_witness :
    matchingVersions "MyApp" true sampleApps = [sampleVersion "K1" true true]
      ∧ (SetUsedApplication (sampleEnv "") (sampleSession (some sampleApps)) "MyApp"
          true).1.requestCredentials.ApplicationKey = "K1" :=
  ⟨by decide,
    SetUsedApplication_last_match (sampleEnv "") (sampleSession (some sampleApps)) "MyApp"
      true sampleApps rfl (by decide)⟩

/-- When no record is accepted the loops leave the session as it was. -/
theorem scanApps_no_match (name : String) (delay : Bool) (apps : List developerApp)
    (s : Session) (h : matchingVersions name delay apps = []) :
    scanApps name delay s apps = s := by
  induction apps generalizing s with
  | nil => rfl
  | cons app apps ih =>
    rw [matchingVersions_cons, List.append_eq_nil] at h
    rw [scanApps_cons, ih _ h.2]
    by_cases hn : app.AppName = name
    · rw [if_pos hn]
      have hf := h.1
      rw [if_pos hn] at hf
      generalize app.AppVersions = vs at hf
      induction vs generalizing s with
      | nil => rfl
      | cons v vs ihv =>
        have hv : ¬ accepted delay v = true := by
          intro hv
          rw [List.filter_cons_of_pos hv] at hf
          exact List.cons_ne_nil _ _ hf
        rw [List.filter_cons_of_neg hv] at hf
        rw [scanVersions_cons, if_neg hv]
        exact ihv s hf
    · rw [if_neg hn]

/-- With a cached list and no accepted record, `SetUsedApplication` leaves the
session as it was and returns the `application not found` error only when the
key was empty before the call; with a key already set it returns nil. -/
theorem SetUsedApplication_no_match (env : Env) (s : Session) (name : String) (delay : Bool)
    (apps : List developerApp) (hcache : s.developerApps = some apps)
    (h : matchingVersions name delay apps = []) :
    SetUsedApplication env s name delay =
      (s, if s.requestCredentials.ApplicationKey = "" then
            some (name ++ " application not found")
          else none) := by
  rw [SetUsedApplication_cached env s name delay apps hcache, scanApps_no_match _ _ _ _ h]

/-- C2 (evaluation at a failing input): on an interactive session with key
`"K0"` and the cached list `sampleApps`, no application is named `"Absent"`,
and `SetUsedApplication("Absent", true)` returns nil, not the
`Absent application not found` error; the session is unchanged. -/
theorem SetUsedApplication_absent_name_returns_nil :
    matchingVersions "Absent" true sampleApps = []
      ∧ SetUsedApplication (sampleEnv "") (sampleSession (some sampleApps)) "Absent" true
          = (sampleSession (some sampleApps), none) :=
  ⟨by decide, by decide⟩

/-! ## Betting calls -/

/-- No failure of `betRequest` reaches the caller as an error result. -/
theorem betRequest_never_returns_error {Q R : Type} (env : Env)
    (marshal : Q → Except String String) (unmarshal : String → R → Except String R)
    (method : String) (s : Session) (q : Option Q) (r : R) (fn : List (VisitorFunc Q R))
    (e : String) :
    betRequest env marshal unmarshal method s q r fn ≠ .returned (.error e) := by
  unfold betRequest
  cases q with
  | none => simp [Logger.Fatal]
  | some q =>
    simp only
    cases marshal q with
    | error err => simp [Logger.Fatal]
    | ok p =>
      simp only
      cases doRequest env s "betting" method p with
      | error err => simp [Logger.Fatal]
      | ok resp =>
        simp only
        cases unmarshal resp r with
        | error err => simp [Logger.Fatal]
        | ok r1 => simp

/-- C3 (evaluation at a failing input): `betRequest` with a nil query ends in
`os.Exit(1)` through `logger.Fatal`; the error
`query parameter can not be nil` is not returned to the caller. -/
theorem betRequest_nil_query_exits :
    betRequest (sampleEnv "[]") (fun q : String => Except.ok q)
        (fun resp (_ : String) => Except.ok resp) "listEvents" (sampleSession none)
        none "" []
      = Outcome.exited 1
    ∧ betRequest (sampleEnv "[]") (fun q : String => Except.ok q)
        (fun resp (_ : String) => Except.ok resp) "listEvents" (sampleSession none)
        none "" []
      ≠ Outcome.returned (Except.error "query parameter can not be nil") :=
  ⟨rfl, fun h => Outcome.noConfusion h⟩

/-! ## Request credentials and login endpoint -/

/-- C11: `setRequestCredentials` derives the request credentials from the
source credential.  For an interactive credential they have the same username,
password, region and application key; for a non-interactive credential they
have the same username, password and region and the empty application key.
`NewSession` sends its login request to `"restLogin"` for an interactive
credential and to `"certLogin"` for a non-interactive one, on the session whose
request credentials were derived this way, and its result is read off the
answer to that request. -/
theorem setRequestCredentials_and_login_endpoint :
    (∀ (s : Session) (c : InteractiveCredentials),
        (setRequestCredentials { s with credentials := .interactive c }).requestCredentials
            = c
          ∧ (setRequestCredentials
                { s with credentials := .interactive c }).requestCredentials.userCredentials.Username
              = c.userCredentials.Username
          ∧ (setRequestCredentials
                { s with credentials := .interactive c }).requestCredentials.userCredentials.Password
              = c.userCredentials.Password
          ∧ (setRequestCredentials
                { s with credentials := .interactive c }).requestCredentials.userCredentials.Exchange
              = c.userCredentials.Exchange
          ∧ (setRequestCredentials
                { s with credentials := .interactive c }).requestCredentials.ApplicationKey
              = c.ApplicationKey)
      ∧ (∀ (s : Session) (c : NonInteractiveCredentials),
        (setRequestCredentials
              { s with credentials := .nonInteractive c }).requestCredentials.userCredentials.Username
            = c.userCredentials.Username
          ∧ (setRequestCredentials
                { s with credentials := .nonInteractive c }).requestCredentials.userCredentials.Password
              = c.userCredentials.Password
          ∧ (setRequestCredentials
                { s with credentials := .nonInteractive c }).requestCredentials.userCredentials.Exchange
              = c.userCredentials.Exchange
          ∧ (setRequestCredentials
                { s with credentials := .nonInteractive c }).requestCredentials.ApplicationKey
              = "")
      ∧ (∀ c : InteractiveCredentials, loginEndpoint (.interactive c) = "restLogin")
      ∧ (∀ c : NonInteractiveCredentials, loginEndpoint (.nonInteractive c) = "certLogin")
      ∧ (∀ (env : Env) (c : InteractiveCredentials),
        (loginSession (.interactive c) { Transport := none }).requestCredentials = c
          ∧ NewSession env (.interactive c) =
            match doRequest env (loginSession (.interactive c) { Transport := none })
                "restLogin" ""
                (loginPayload (loginSession (.interactive c) { Transport := none })) with
            | .error err => (none, some err)
            | .ok resp =>
              match env.unmarshalRestLogin resp with
              | .error err => (none, some err)
              | .ok result =>
                if result.Status ≠ "SUCCESS" then (none, some result.Error)
                else
                  (some { loginSession (.interactive c) { Transport := none } with
                          token := result.Token }, none))
      ∧ (∀ (env : Env) (c : NonInteractiveCredentials) (client : Client),
        getHttpClient env (.nonInteractive c) = .ok client →
          (loginSession (.nonInteractive c) client).requestCredentials
              = { userCredentials := c.userCredentials, ApplicationKey := "" }
            ∧ NewSession env (.nonInteractive c) =
              match doRequest env (loginSession (.nonInteractive c) client) "certLogin" ""
                  (loginPayload (loginSession (.nonInteractive c) client)) with
              | .error err => (none, some err)
              | .ok resp =>
                match env.unmarshalCertLogin resp with
                | .error err => (none, some err)
                | .ok result =>
                  if result.Status ≠ "SUCCESS" then (none, some result.Status)
                  else
                    (some { loginSession (.nonInteractive c) client with
                            token := result.Token }, none)) := by
  refine ⟨fun s c => ⟨rfl, rfl, rfl, rfl, rfl⟩, fun s c => ⟨rfl, rfl, rfl, rfl⟩,
    fun c => rfl, fun c => rfl, fun env c => ⟨rfl, rfl⟩, ?_⟩
  intro env c client hclient
  refine ⟨rfl, ?_⟩
  unfold NewSession
  simp only [hclient, loginSession_credentials]
  rfl

/-- Instance of C11: a certificate login goes to `"certLogin"` with the empty
application key in the request credentials; here the answer cannot be decoded,
and that error is the result. -/
theorem setRequestCredentials_and_login_endpoint_witness :
    getHttpClient (sampleEnv "") (.nonInteractive sampleCertCredentials)
        = .ok { Transport := some { Certificates := ["crt"], InsecureSkipVerify := true } }
      ∧ (loginSession (.nonInteractive sampleCertCredentials)
            { Transport := some { Certificates := ["crt"], InsecureSkipVerify := true } }
          ).requestCredentials
          = { userCredentials := { Username := "user", Password := "pass", Exchange := "UK" },
              ApplicationKey := "" }
      ∧ NewSession (sampleEnv "") (.nonInteractive sampleCertCredentials)
          = (none, some "invalid character") :=
  have h := setRequestCredentials_and_login_endpoint.2.2.2.2.2 (sampleEnv "")
    sampleCertCredentials
    { Transport := some { Certificates := ["crt"], InsecureSkipVerify := true } } rfl
  ⟨rfl, h.1, h.2.trans rfl⟩

/-! ## What `SetUsedApplication` may change -/

/-- Two assignments of the key in a row are the second one. -/
theorem setApplicationKey_idem (s : Session) (a b : String) :
    setApplicationKey (setApplicationKey s a) b = setApplicationKey s b := by
  obtain ⟨t, c, rc, h, d⟩ := s
  cases c <;> rfl

/-- The inner loop either leaves the session as it was or amounts to one
assignment of the key. -/
theorem scanVersions_frame (delay : Bool) (vs : List AppVersion) (s : Session) :
    scanVersions delay s vs = s ∨ ∃ k, scanVersions delay s vs = setApplicationKey s k := by
  induction vs generalizing s with
  | nil => exact Or.inl rfl
  | cons v vs ih =>
    rw [scanVersions_cons]
    by_cases h : accepted delay v = true
    · rw [if_pos h]
      rcases ih (setApplicationKey s v.ApplicationKey) with h1 | ⟨k, h1⟩
      · exact Or.inr ⟨_, h1⟩
      · exact Or.inr ⟨k, by rw [h1, setApplicationKey_idem]⟩
    · rw [if_neg h]
      exact ih s

/-- Both loops together either leave the session as it was or amount to one
assignment of the key. -/
theorem scanApps_frame (name : String) (delay : Bool) (apps : List developerApp)
    (s : Session) :
    scanApps name delay s apps = s ∨ ∃ k, scanApps name delay s apps = setApplicationKey s k := by
  induction apps generalizing s with
  | nil => exact Or.inl rfl
  | cons app apps ih =>
    rw [scanApps_cons]
    by_cases h : app.AppName = name
    · rw [if_pos h]
      rcases scanVersions_frame delay app.AppVersions s with h0 | ⟨k0, h0⟩
      · rw [h0]
        exact ih s
      · rw [h0]
        rcases ih (setApplicationKey s k0) with h1 | ⟨k, h1⟩
        · exact Or.inr ⟨k0, h1⟩
        · exact Or.inr ⟨k, by rw [h1, setApplicationKey_idem]⟩
    · rw [if_neg h]
      exact ih s

/-- A failed fetch or a failed decoding makes `loadDeveloperApps` fail with the
same error. -/
theorem loadDeveloperApps_error (env : Env) (s : Session) (err : String)
    (hcache : s.developerApps = none)
    (h : GetDeveloperAppKeys env s = .error err
      ∨ ∃ resp, GetDeveloperAppKeys env s = .ok resp ∧ env.unmarshalApps resp = .error err) :
    loadDeveloperApps env s = .error err := by
  rw [loadDeveloperApps_eq]
  rcases h with h | ⟨resp, h, hu⟩
  · simp only [hcache, h]
  · simp only [hcache, h, hu]

/-- With a populated cache the first block sends nothing. -/
theorem loadDeveloperAppsLogged_cached (env : Env) (s : Session) (apps : List developerApp)
    (h : s.developerApps = some apps) : loadDeveloperAppsLogged env s = (.ok s, []) := by
  simp [loadDeveloperAppsLogged, h]

/-- The requests sent by `SetUsedApplication` are those of its first block. -/
theorem SetUsedApplicationLogged_sent (env : Env) (s : Session) (name : String)
    (delay : Bool) :
    (SetUsedApplicationLogged env s name delay).2 = (loadDeveloperAppsLogged env s).2 := by
  unfold SetUsedApplicationLogged
  rcases loadDeveloperAppsLogged env s with ⟨r, sent⟩
  cases r with
  | error err => rfl
  | ok s1 =>
    simp only
    split <;> rfl

/-- With an empty cache the requests sent by the first block are those of the
one `doRequest` call of `GetDeveloperAppKeys`. -/
theorem loadDeveloperAppsLogged_sent_of_empty (env : Env) (s : Session)
    (h : s.developerApps = none) :
    (loadDeveloperAppsLogged env s).2
      = (doRequestLogged env s "account" "getDeveloperAppKeys" "").2 := by
  unfold loadDeveloperAppsLogged GetDeveloperAppKeysLogged
  simp only [h]
  rcases doRequestLogged env s "account" "getDeveloperAppKeys" "" with ⟨r, sent⟩
  cases r with
  | error err => rfl
  | ok resp =>
    simp only
    cases env.unmarshalApps resp <;> rfl

/-- A call of `doRequest` hands at most one request to the client. -/
theorem doRequestLogged_sent_length (env : Env) (s : Session)
    (endpoint method body : String) :
    (doRequestLogged env s endpoint method body).2.length ≤ 1 := by
  unfold doRequestLogged
  cases buildRequest env s endpoint method body with
  | error err => simp
  | ok req =>
    simp only
    cases env.Do s.httpClient req with
    | error err => simp
    | ok res =>
      simp only
      by_cases hs : res.StatusCode ≠ 200
      · rw [if_pos hs]
        simp
      · rw [if_neg hs]
        cases res.Body <;> simp

/-- C12: on a session whose developer-application cache is populated,
`SetUsedApplication` performs no request (the record of requests handed to the
client during the call is empty, and the result is the same in every
environment), leaves the cache, the token, the client and the user part of the
request credentials as they were, and the session after the call is the
session before it or that session with one assignment to
`requestCredentials.ApplicationKey` (for interactive credentials `credentials`
is the same pointer, so the record shows that one cell under both names; for
non-interactive credentials `credentials` is unchanged).  When the cache is
empty, the requests sent are those of the one `getDeveloperAppKeys` call, at
most one; if that fetch or the decoding of its answer fails, the error is
returned and the session is as it was. -/
theorem SetUsedApplication_frame (env : Env) (s : Session) (name : String) (delay : Bool) :
    (SetUsedApplicationLogged env s name delay).1 = SetUsedApplication env s name delay
      ∧ (∀ apps : List developerApp, s.developerApps = some apps →
        (SetUsedApplicationLogged env s name delay).2 = []
          ∧ (∀ env2 : Env,
            SetUsedApplication env2 s name delay = SetUsedApplication env s name delay)
          ∧ (SetUsedApplication env s name delay).1.developerApps = s.developerApps
          ∧ (SetUsedApplication env s name delay).1.token = s.token
          ∧ (SetUsedApplication env s name delay).1.httpClient = s.httpClient
          ∧ (SetUsedApplication env s name delay).1.requestCredentials.userCredentials
              = s.requestCredentials.userCredentials
          ∧ (∀ c : NonInteractiveCredentials, s.credentials = .nonInteractive c →
              (SetUsedApplication env s name delay).1.credentials = s.credentials)
          ∧ ((SetUsedApplication env s name delay).1 = s
              ∨ (SetUsedApplication env s name delay).1
                  = setApplicationKey s
                      (SetUsedApplication env s name delay).1.requestCredentials.ApplicationKey))
      ∧ (s.developerApps = none →
          (SetUsedApplicationLogged env s name delay).2
              = (doRequestLogged env s "account" "getDeveloperAppKeys" "").2
            ∧ (SetUsedApplicationLogged env s name delay).2.length ≤ 1
            ∧ ∀ err : String,
              (GetDeveloperAppKeys env s = .error err
                ∨ ∃ resp, GetDeveloperAppKeys env s = .ok resp
                    ∧ env.unmarshalApps resp = .error err) →
              SetUsedApplication env s name delay = (s, some err)) := by
  refine ⟨rfl, ?_, ?_⟩
  · intro apps hcache
    have hfst : (SetUsedApplication env s name delay).1 = scanApps name delay s apps := by
      rw [SetUsedApplication_cached env s name delay apps hcache]
    refine ⟨?_, fun env2 => ?_, ?_⟩
    · rw [SetUsedApplicationLogged_sent, loadDeveloperAppsLogged_cached env s apps hcache]
    · rw [SetUsedApplication_cached env2 s name delay apps hcache,
        SetUsedApplication_cached env s name delay apps hcache]
    · rw [hfst]
      rcases scanApps_frame name delay apps s with h | ⟨k, h⟩
      · rw [h]
        exact ⟨rfl, rfl, rfl, rfl, fun _ _ => rfl, Or.inl rfl⟩
      · rw [h]
        refine ⟨rfl, rfl, rfl, rfl, ?_, Or.inr rfl⟩
        intro c hc
        simp only [setApplicationKey, hc]
  · intro hcache
    have hsent : (SetUsedApplicationLogged env s name delay).2
        = (doRequestLogged env s "account" "getDeveloperAppKeys" "").2 := by
      rw [SetUsedApplicationLogged_sent, loadDeveloperAppsLogged_sent_of_empty env s hcache]
    refine ⟨hsent, ?_, ?_⟩
    · rw [hsent]
      exact doRequestLogged_sent_length env s "account" "getDeveloperAppKeys" ""
    · intro err h
      rw [SetUsedApplication_eq, loadDeveloperApps_error env s err hcache h]

/-- Instance of C12: with the cache `sampleApps`, resolving `("MyApp", true)`
sends nothing, even through a client that would serve the request, and keeps
the token and the cache; with an empty cache the one `getDeveloperAppKeys`
request is sent, and a failed round trip and an undecodable answer are both
returned with the session as it was. -/
theorem SetUsedApplication_frame_witness :
    (SetUsedApplicationLogged (sampleEnv "") (sampleSession (some sampleApps)) "MyApp"
          true).2 = []
      ∧ (SetUsedApplication (sampleEnv "") (sampleSession (some sampleApps)) "MyApp"
          true).1.token = "TOKEN"
      ∧ (SetUsedApplication (sampleEnv "") (sampleSession (some sampleApps)) "MyApp"
          true).1.developerApps = some sampleApps
      ∧ SetUsedApplication offlineEnv (sampleSession (some sampleApps)) "MyApp" true
          = SetUsedApplication (sampleEnv "") (sampleSession (some sampleApps)) "MyApp" true
      ∧ (SetUsedApplicationLogged (sampleEnv "") (sampleSession none) "MyApp" true).2
          = [{ Method := "POST",
               URL := "https://api.betfair.com/exchange/account/rest/v1.0/getDeveloperAppKeys/",
               Header := [("X-Authentication", "TOKEN"), ("Content-Type", "application/json"),
                 ("Accept", "application/json")],
               Body := "" }]
      ∧ SetUsedApplication offlineEnv (sampleSession none) "MyApp" true
          = (sampleSession none, some "dial tcp: connection refused")
      ∧ SetUsedApplication (sampleEnv "") (sampleSession none) "MyApp" true
          = (sampleSession none, some "invalid character") :=
  have hA := (SetUsedApplication_frame (sampleEnv "") (sampleSession (some sampleApps))
    "MyApp" true).2.1 sampleApps rfl
  have hB := (SetUsedApplication_frame (sampleEnv "") (sampleSession none) "MyApp"
    true).2.2 rfl
  ⟨hA.1, hA.2.2.2.1, hA.2.2.1, hA.2.1 offlineEnv, hB.1.trans rfl,
    ((SetUsedApplication_frame offlineEnv (sampleSession none) "MyApp" true).2.2 rfl).2.2
      "dial tcp: connection refused" (Or.inl rfl),
    hB.2.2 "invalid character" (Or.inr ⟨"", rfl, rfl⟩)⟩

end Betfair
